import Mathlib

/-!
Verification development for the md5mesh-viewer repository.

The repository loads id-Software MD5 skeletal models, reconstructs per-frame
joint transforms from a sparse channel encoding, skins vertices and derives
per-triangle / per-vertex normal-tangent-bitangent geometry.

`src/md5anim.ts` declares the animation document types (`Hierarchy`, `Bounds`,
`BaseFrame`, `Frame`, `MD5Anim`); `src/index.ts` is the startup / render loop.
The parser, hierarchy resolver, skin evaluator and derived geometry generator
are part of the repository but their source files are not present, so those
operations are modelled from the spec (each such definition says so in its
doc comment).  Floating point numbers are modelled by `ℝ`.
-/

namespace MD5

/-- A 3-component vector, embedding the `vec3` number triples
(`ReadonlyArray<number>` of length 3) used throughout the source. -/
@[ext]
structure Vec3 where
  x : ℝ
  y : ℝ
  z : ℝ

/-- A quaternion, embedding `gl-matrix`'s `quat` (x, y, z, w). -/
@[ext]
structure Quat where
  x : ℝ
  y : ℝ
  z : ℝ
  w : ℝ

instance : Inhabited Vec3 := ⟨⟨0, 0, 0⟩⟩
instance : Inhabited Quat := ⟨⟨0, 0, 0, 1⟩⟩

/-- Vector addition. -/
def vadd (a b : Vec3) : Vec3 := ⟨a.x + b.x, a.y + b.y, a.z + b.z⟩

instance : Zero Vec3 := ⟨⟨0, 0, 0⟩⟩
instance : Add Vec3 := ⟨vadd⟩

instance : AddCommMonoid Vec3 where
  add_assoc a b c := by
    show vadd (vadd a b) c = vadd a (vadd b c)
    simp only [vadd, Vec3.mk.injEq]
    exact ⟨by ring, by ring, by ring⟩
  zero_add a := by
    show vadd ⟨0, 0, 0⟩ a = a
    simp only [vadd, zero_add]
  add_zero a := by
    show vadd a ⟨0, 0, 0⟩ = a
    simp only [vadd, add_zero]
  add_comm a b := by
    show vadd a b = vadd b a
    simp only [vadd, Vec3.mk.injEq]
    exact ⟨by ring, by ring, by ring⟩
  nsmul := nsmulRec

/-- Scalar multiple of a vector. -/
def smul (s : ℝ) (v : Vec3) : Vec3 := ⟨s * v.x, s * v.y, s * v.z⟩

/-- Quaternion multiplication (Hamilton product), as in `gl-matrix`. -/
def quatMul (a b : Quat) : Quat :=
  ⟨a.w * b.x + a.x * b.w + a.y * b.z - a.z * b.y,
   a.w * b.y - a.x * b.z + a.y * b.w + a.z * b.x,
   a.w * b.z + a.x * b.y - a.y * b.x + a.z * b.w,
   a.w * b.w - a.x * b.x - a.y * b.y - a.z * b.z⟩

/-- Rotation of a vector by a unit quaternion, `q · v`, expanded to the
standard polynomial form `v + 2w(u × v) + 2u × (u × v)` with `u = (x,y,z)`. -/
def quatRotate (q : Quat) (v : Vec3) : Vec3 :=
  let cx := q.y * v.z - q.z * v.y
  let cy := q.z * v.x - q.x * v.z
  let cz := q.x * v.y - q.y * v.x
  let dx := q.y * cz - q.z * cy
  let dy := q.z * cx - q.x * cz
  let dz := q.x * cy - q.y * cx
  ⟨v.x + 2 * q.w * cx + 2 * dx,
   v.y + 2 * q.w * cy + 2 * dy,
   v.z + 2 * q.w * cz + 2 * dz⟩

/-- Embeds the `Hierarchy` interface of `src/md5anim.ts`: joint name, parent
index (`-1` for a root), per-frame channel flag bitmask, and the offset of the
joint's stored channels in a frame's flat component stream. -/
structure Hierarchy where
  name : String
  parent : Int
  flags : Nat
  startIndex : Nat

/-- Embeds the `Bounds` interface of `src/md5anim.ts`. -/
structure Bounds where
  min : List ℝ
  max : List ℝ

/-- Embeds the `BaseFrame` interface of `src/md5anim.ts`: the default
parent-relative transform of one joint. -/
structure BaseFrame where
  position : Vec3
  orientation : Quat

/-- Embeds the `Frame` interface of `src/md5anim.ts`: the flat ordered float
stream containing only the channels flagged as stored. -/
structure Frame where
  index : Nat
  components : List ℝ

/-- Embeds the `MD5Anim` interface of `src/md5anim.ts`. -/
structure MD5Anim where
  hierarchy : List Hierarchy
  bounds : List Bounds
  baseFrame : List BaseFrame
  frames : List Frame

instance : Inhabited Hierarchy := ⟨⟨"", -1, 0, 0⟩⟩
instance : Inhabited BaseFrame := ⟨⟨default, default⟩⟩
instance : Inhabited Frame := ⟨⟨0, []⟩⟩

/-- A resolved joint transform: absolute position and orientation. -/
structure JointTransform where
  position : Vec3
  orientation : Quat

instance : Inhabited JointTransform := ⟨⟨default, default⟩⟩

/-- Number of stored channels strictly before channel `i` in the fixed
channel order (tx, ty, tz, qx, qy, qz): the offset within the joint's slice
of the frame stream at which channel `i`'s float sits, if stored. -/
def chanOffset (flags i : Nat) : Nat :=
  (List.range i).countP (fun j => flags.testBit j)

/-- Modelled from the spec (§4.2 step 2, Joint Hierarchy Resolver; the
resolver source file is not present): the value of channel `i` for a joint —
the base-frame default unless bit `i` of the flag mask is set, in which case
the float is read from the frame's component stream at
`startIndex + chanOffset`. -/
def chanVal (dflt : ℝ) (flags i startIndex : Nat) (comps : List ℝ) : ℝ :=
  if flags.testBit i then comps.getD (startIndex + chanOffset flags i) 0 else dflt

/-- Modelled from the spec (§4.2 step 3): W component of a unit quaternion
reconstructed from its three stored vector components, non-negative root
convention. -/
noncomputable def recomputeW (x y z : ℝ) : ℝ :=
  Real.sqrt (max 0 (1 - (x ^ 2 + y ^ 2 + z ^ 2)))

/-- True when the flag mask stores at least one orientation channel. -/
def orientFlagged (flags : Nat) : Bool :=
  flags.testBit 3 || flags.testBit 4 || flags.testBit 5

/-- Modelled from the spec (§4.2 steps 1–3; the resolver source file is not
present): the parent-relative transform of one joint for one frame — base
frame defaults, flagged channels overwritten from the component stream, W
recomputed iff an orientation channel was overwritten. -/
noncomputable def resolveLocal (h : Hierarchy) (bf : BaseFrame) (comps : List ℝ) :
    JointTransform :=
  let px := chanVal bf.position.x h.flags 0 h.startIndex comps
  let py := chanVal bf.position.y h.flags 1 h.startIndex comps
  let pz := chanVal bf.position.z h.flags 2 h.startIndex comps
  let qx := chanVal bf.orientation.x h.flags 3 h.startIndex comps
  let qy := chanVal bf.orientation.y h.flags 4 h.startIndex comps
  let qz := chanVal bf.orientation.z h.flags 5 h.startIndex comps
  let qw := if orientFlagged h.flags then recomputeW qx qy qz else bf.orientation.w
  ⟨⟨px, py, pz⟩, ⟨qx, qy, qz, qw⟩⟩

/-- Modelled from the spec (§4.2 step 4): compose a joint's parent-relative
transform with its parent's absolute transform (parent-major quaternion
product); roots keep their local values. -/
def composeParent (parentT : JointTransform) (localT : JointTransform) : JointTransform :=
  ⟨vadd parentT.position (quatRotate parentT.orientation localT.position),
   quatMul parentT.orientation localT.orientation⟩

/-- Modelled from the spec (§4.2): one resolution step — append joint `j`'s
absolute transform to the accumulator of already-resolved lower-index joints. -/
noncomputable def resolveStep (anim : MD5Anim) (comps : List ℝ)
    (acc : List JointTransform) (j : Nat) : List JointTransform :=
  let h := anim.hierarchy.getD j default
  let localT := resolveLocal h (anim.baseFrame.getD j default) comps
  let t :=
    if 0 ≤ h.parent then composeParent (acc.getD h.parent.toNat default) localT
    else localT
  acc ++ [t]

/-- Modelled from the spec (§4.2, §6 `resolvePose`; the resolver source file
is not present): absolute transforms of all joints for one frame, resolved in
strictly ascending joint index order. -/
noncomputable def resolvePose (anim : MD5Anim) (frameIndex : Nat) : List JointTransform :=
  let comps := (anim.frames.getD frameIndex default).components
  (List.range anim.hierarchy.length).foldl (resolveStep anim comps) []

/-- Modelled from the spec (§4.2 static case): the pose obtained from the base
frame alone — "copying baseFrame values directly (no channel overwrite, no
stream read)" — composed through the hierarchy. -/
noncomputable def basePose (anim : MD5Anim) : List JointTransform :=
  (List.range anim.hierarchy.length).foldl
    (fun acc j =>
      let h := anim.hierarchy.getD j default
      let bf := anim.baseFrame.getD j default
      let localT : JointTransform := ⟨bf.position, bf.orientation⟩
      let t :=
        if 0 ≤ h.parent then composeParent (acc.getD h.parent.toNat default) localT
        else localT
      acc ++ [t]) []

/-- Resolution of the first `m` joints only, in ascending index order: the
accumulator state of `resolvePose` after `m` steps. -/
noncomputable def resolveUpTo (anim : MD5Anim) (comps : List ℝ) (m : Nat) :
    List JointTransform :=
  (List.range m).foldl (resolveStep anim comps) []

/-! ### Mesh document (modelled from the spec §3/§4.1; the mesh parser source
file `md5meshParser.ts` is not present in `src/`) -/

/-- Modelled from the spec: one weight binding — joint index, weight value
(bias) and joint-space offset. -/
structure MeshWeight where
  joint : Nat
  bias : ℝ
  position : Vec3

instance : Inhabited MeshWeight := ⟨⟨0, 0, default⟩⟩

/-- Modelled from the spec: a mesh vertex — UV coordinates and the index
range of its weight bindings in the mesh's weight list. -/
structure MeshVertex where
  u : ℝ
  v : ℝ
  startWeight : Nat
  countWeight : Nat

/-- Modelled from the spec: a triangle as three ordered vertex indices
(winding determines facing). -/
structure Triangle where
  a : Nat
  b : Nat
  c : Nat

/-- Modelled from the spec: one bind-pose joint of the mesh document. -/
structure MeshJoint where
  name : String
  parent : Int
  position : Vec3
  orientation : Quat

instance : Inhabited MeshJoint := ⟨⟨"", -1, default, default⟩⟩

/-- Modelled from the spec: one mesh of the model document. -/
structure Mesh where
  shader : String
  vertices : List MeshVertex
  triangles : List Triangle
  weights : List MeshWeight

/-- Modelled from the spec: the parsed mesh document. -/
structure MD5Mesh where
  joints : List MeshJoint
  meshes : List Mesh

/-! ### Skin evaluator (modelled from the spec §4.3; source not present) -/

/-- Modelled from the spec: the contribution of one weight binding,
`weight · (jointPosition + jointOrientation · jointSpaceOffset)`. -/
def skinWeight (joints : List JointTransform) (w : MeshWeight) : Vec3 :=
  let t := joints.getD w.joint default
  smul w.bias (vadd t.position (quatRotate t.orientation w.position))

/-- The ordered list of weight bindings of a vertex, read from the mesh's
weight list over the vertex's declared index range. -/
def vertexBindings (weights : List MeshWeight) (v : MeshVertex) : List MeshWeight :=
  (List.range v.countWeight).map (fun k => weights.getD (v.startWeight + k) default)

/-- Modelled from the spec (§4.3 linear-blend skinning; source not present):
the skinned position of one vertex, accumulated over its weight bindings in
order, with no renormalization of the weights. -/
def skinVertex (joints : List JointTransform) (weights : List MeshWeight)
    (v : MeshVertex) : Vec3 :=
  (vertexBindings weights v).foldl (fun acc w => vadd acc (skinWeight joints w)) ⟨0, 0, 0⟩

/-- Skinned positions of all vertices of one mesh. -/
def skinMesh (joints : List JointTransform) (m : Mesh) : List Vec3 :=
  m.vertices.map (skinVertex joints m.weights)

/-! ### Parser validation (modelled from the spec §4.1/§7; source not present) -/

/-- Modelled from the spec (§7): the two fatal error kinds of the pipeline. -/
inductive MD5Error where
  | formatError (msg : String)
  | consistencyError (msg : String)
deriving DecidableEq

/-- Popcount over the six channel bits of a flag mask: the number of floats
the joint consumes from a frame's component stream. -/
def popcount6 (flags : Nat) : Nat :=
  (List.range 6).countP (fun j => flags.testBit j)

/-- The expected `startIndex` of joint `j`: total channels stored by joints
declared before it. -/
def expectedStart (hs : List Hierarchy) (j : Nat) : Nat :=
  ((hs.take j).map (fun h => popcount6 h.flags)).sum

/-- Total number of stored channels per frame for a hierarchy. -/
def totalChannels (hs : List Hierarchy) : Nat :=
  (hs.map (fun h => popcount6 h.flags)).sum

/-- A parent index is valid at declaration position `j` iff it is `-1` or the
index of an earlier-declared joint. -/
def validParent (j : Nat) (p : Int) : Bool :=
  decide (p = -1 ∨ (0 ≤ p ∧ p < (j : Int)))

/-- All parent references of a hierarchy are in range and earlier-declared. -/
def validParents (hs : List Hierarchy) : Bool :=
  (List.range hs.length).all (fun j => validParent j (hs.getD j default).parent)

/-- Every joint's `startIndex` matches the popcounts of earlier flags, and
every frame stores exactly the total flagged channel count. -/
def validChannels (doc : MD5Anim) : Bool :=
  (List.range doc.hierarchy.length).all
    (fun j => (doc.hierarchy.getD j default).startIndex == expectedStart doc.hierarchy j) &&
  doc.frames.all (fun f => f.components.length == totalChannels doc.hierarchy)

/-- Modelled from the spec (§4.1/§7; the animation parser source is not
present): validation run by the parser on an animation document — returns the
document unchanged on success, aborts with a `FormatError` otherwise, never
repairing the input. -/
def checkAnim (doc : MD5Anim) : Except MD5Error MD5Anim :=
  if ¬ validParents doc.hierarchy then
    Except.error (MD5Error.formatError "parent index out of range or not yet declared")
  else if ¬ validChannels doc then
    Except.error (MD5Error.formatError "frame channel count does not match flag popcounts")
  else
    Except.ok doc

/-- Every vertex's weight index range lies inside the declared weight list. -/
def validWeightRanges (m : Mesh) : Bool :=
  m.vertices.all (fun v => v.startWeight + v.countWeight ≤ m.weights.length)

/-- Modelled from the spec (§4.1/§7; the mesh parser source is not present):
validation run by the parser on a mesh document. -/
def checkMesh (doc : MD5Mesh) : Except MD5Error MD5Mesh :=
  if ¬ (List.range doc.joints.length).all
      (fun j => validParent j (doc.joints.getD j default).parent) then
    Except.error (MD5Error.formatError "parent index out of range or not yet declared")
  else if ¬ doc.meshes.all validWeightRanges then
    Except.error (MD5Error.formatError "vertex weight range outside weight list")
  else
    Except.ok doc

/-! ### Derived geometry generator (modelled from the spec §4.4; source not
present) -/

/-- Vector difference. -/
def vsub (a b : Vec3) : Vec3 := ⟨a.x - b.x, a.y - b.y, a.z - b.z⟩

/-- Cross product. -/
def cross (a b : Vec3) : Vec3 :=
  ⟨a.y * b.z - a.z * b.y, a.z * b.x - a.x * b.z, a.x * b.y - a.y * b.x⟩

/-- Euclidean length. -/
noncomputable def vlen (a : Vec3) : ℝ :=
  Real.sqrt (a.x ^ 2 + a.y ^ 2 + a.z ^ 2)

/-- Normalization to unit length. -/
noncomputable def normalize (a : Vec3) : Vec3 := smul (1 / vlen a) a

/-- The near-zero threshold for the UV-area determinant. -/
noncomputable def degenerateEps : ℝ := 1 / 1000000

/-- Modelled from the spec (§4.4; the geometry source is not present):
per-triangle tangent and bitangent solved from the 2×2 UV system, with the
degenerate case (near-zero UV-area determinant) reported to the warning sink
and skipped — the triangle's tangent/bitangent left undefined — instead of
dividing by the near-zero determinant. -/
noncomputable def triangleTangentBitangent (p0 p1 p2 : Vec3) (uv0 uv1 uv2 : ℝ × ℝ) :
    Option (Vec3 × Vec3) × List String :=
  let e1 := vsub p1 p0
  let e2 := vsub p2 p0
  let du1 := uv1.1 - uv0.1
  let dv1 := uv1.2 - uv0.2
  let du2 := uv2.1 - uv0.1
  let dv2 := uv2.2 - uv0.2
  let det := du1 * dv2 - du2 * dv1
  if |det| < degenerateEps then
    (none, ["degenerate UV-area determinant"])
  else
    let r := 1 / det
    (some (smul r (vsub (smul dv2 e1) (smul dv1 e2)),
           smul r (vsub (smul du1 e2) (smul du2 e1))), [])

/-- True when vertex index `v` is one of the triangle's corners. -/
def sharesVertex (t : Triangle) (v : Nat) : Bool :=
  t.a == v || t.b == v || t.c == v

/-- Add a vector into one slot of a pre-sized accumulation buffer. -/
def addAt (buf : Nat → Vec3) (i : Nat) (x : Vec3) : Nat → Vec3 :=
  fun j => if j = i then vadd (buf j) x else buf j

/-- One scatter step: add a triangle's vector into the slots of its three
corners. -/
def scatterTri (triVec : Triangle → Vec3) (buf : Nat → Vec3) (t : Triangle) :
    Nat → Vec3 :=
  addAt (addAt (addAt buf t.a (triVec t)) t.b (triVec t)) t.c (triVec t)

/-- Modelled from the spec (§4.4 and §9 scatter-accumulate; source not
present): the per-vertex accumulation buffer — each triangle's vector added
into the slot of each of its corners, triangles processed in order. -/
def accumVertex (tris : List Triangle) (triVec : Triangle → Vec3) : Nat → Vec3 :=
  tris.foldl (scatterTri triVec) (fun _ => ⟨0, 0, 0⟩)

/-- Modelled from the spec (§4.4): the derived per-vertex vector — the
accumulated sum renormalized. -/
noncomputable def vertexVector (tris : List Triangle) (triVec : Triangle → Vec3)
    (v : Nat) : Vec3 :=
  normalize (accumVertex tris triVec v)

/-! ### Pose-resolution session and pipeline state threading -/

/-- One call of the pose resolver against the shared document state: the
document is the only state, and the call returns it together with the pose.
Modelled from the spec (§6): `resolvePose(frameIndex)` over the parsed
document. -/
noncomputable def resolveCall (st : MD5Anim) (q : Nat) : MD5Anim × List JointTransform :=
  (st, resolvePose st q)

/-- A session of pose queries evaluated in order against the document state,
threading the state through every call and collecting the answers. -/
noncomputable def resolveSession (anim : MD5Anim) (queries : List Nat) :
    MD5Anim × List (List JointTransform) :=
  queries.foldl
    (fun s q =>
      let r := resolveCall s.1 q
      (r.1, s.2 ++ [r.2])) (anim, [])

/-- Modelled from the spec (§4.4): per-triangle normal — normalized cross
product of two edge vectors, ordered for the mesh format's clockwise-front
winding. -/
noncomputable def triangleNormal (p0 p1 p2 : Vec3) : Vec3 :=
  normalize (cross (vsub p2 p0) (vsub p1 p0))

/-- The normal of one triangle of a mesh, read off a positions buffer. -/
noncomputable def meshTriangleNormal (positions : List Vec3) (t : Triangle) : Vec3 :=
  triangleNormal (positions.getD t.a default) (positions.getD t.b default)
    (positions.getD t.c default)

/-- Modelled from the spec (§4.4; the geometry source is not present): the
derived geometry of one mesh — its per-triangle normals, and its per-vertex
normals obtained by the scatter-accumulate over shared triangles followed by
renormalization — computed from a skinned positions buffer. -/
noncomputable def meshDerivedGeometry (positions : List Vec3) (m : Mesh) :
    List Vec3 × List Vec3 :=
  (m.triangles.map (meshTriangleNormal positions),
   (List.range m.vertices.length).map
     (vertexVector m.triangles (meshTriangleNormal positions)))

/-- Modelled from the spec (§2 data flow, §3 ownership): the pipeline run over
the parsed documents — pose resolution, then skinning of every mesh, then the
derived geometry generator (per-triangle and per-vertex normals of every
mesh) — threading the documents through each stage and returning them with
the freshly derived buffers. -/
noncomputable def runPipeline (m : MD5Mesh) (anim : MD5Anim) (frameIndex : Nat) :
    (MD5Mesh × MD5Anim) ×
      (List JointTransform × List (List Vec3) × List (List Vec3 × List Vec3)) :=
  let docs0 := (m, anim)
  let stage1 := (docs0, resolvePose docs0.2 frameIndex)
  let docs1 := stage1.1
  let pose := stage1.2
  let stage2 := (docs1, docs1.1.meshes.map (skinMesh pose))
  let docs2 := stage2.1
  let skinned := stage2.2
  let stage3 := (docs2, (docs2.1.meshes.zip skinned).map
    (fun p => meshDerivedGeometry p.2 p.1))
  let docs3 := stage3.1
  let geometry := stage3.2
  (docs3, (pose, skinned, geometry))

/-! ### Startup / render loop (embedded from `src/index.ts`) -/

/-- The GPU buffers created by `src/index.ts`: one per module-level constant
holding rendering data derived from the parsed model (lines 37–45 and the
light point buffer of line 58). -/
inductive BufferId where
  | joints
  | triangleNormals
  | triangleTangents
  | triangleBitangents
  | vertexNormals
  | vertexTangents
  | vertexBitangents
  | meshTriangles
  | meshes
  | lightBuffer
deriving DecidableEq

/-- The model-data operations `src/index.ts` performs that this development
tracks: parsing the mesh source, computing a derived rendering buffer, and
issuing a draw that reads a buffer. -/
inductive Op where
  | parseModel
  | compute (b : BufferId)
  | draw (b : BufferId)
deriving DecidableEq

/-- Embeds the module body of `src/index.ts` (lines 34–58): at startup the
model source is parsed once, then every derived rendering buffer is computed
once, in declaration order, before the first `render` call. -/
def startupOps : List Op :=
  [Op.parseModel,
   Op.compute BufferId.joints,
   Op.compute BufferId.triangleNormals,
   Op.compute BufferId.triangleTangents,
   Op.compute BufferId.triangleBitangents,
   Op.compute BufferId.vertexNormals,
   Op.compute BufferId.vertexTangents,
   Op.compute BufferId.vertexBitangents,
   Op.compute BufferId.meshTriangles,
   Op.compute BufferId.meshes,
   Op.compute BufferId.lightBuffer]

/-- Embeds the settings object read by `render` via `getSettings()` in
`src/index.ts`: the visualization toggles and the per-mesh enable list. -/
structure Settings where
  skeleton : Bool
  meshEnabled : List Bool
  vertices : Bool
  triangleNormals : Bool
  vertexNormals : Bool
  flatGeometry : Bool
  shadedGeometry : Bool
  texture : Bool
  full : Bool

/-- Embeds `renderTriangleNormals` of `src/index.ts`: draws the precomputed
triangle normal, tangent and bitangent line buffers. -/
def renderTriangleNormalsOps : List Op :=
  [Op.draw BufferId.triangleNormals,
   Op.draw BufferId.triangleTangents,
   Op.draw BufferId.triangleBitangents]

/-- Embeds `renderVertexNormals` of `src/index.ts`. -/
def renderVertexNormalsOps : List Op :=
  [Op.draw BufferId.vertexNormals,
   Op.draw BufferId.vertexTangents,
   Op.draw BufferId.vertexBitangents]

/-- Embeds the per-mesh body of the `meshes.forEach` loop inside `render`
(`src/index.ts` lines 206–240): when the mesh is enabled, each active setting
draws from the corresponding precomputed buffer. -/
def renderMeshOps (s : Settings) (enabled : Bool) : List Op :=
  if enabled then
    (if s.vertices then [Op.draw BufferId.meshes] else []) ++
    (if s.triangleNormals then renderTriangleNormalsOps else []) ++
    (if s.vertexNormals then renderVertexNormalsOps else []) ++
    (if s.flatGeometry then [Op.draw BufferId.meshTriangles] else []) ++
    (if s.shadedGeometry then [Op.draw BufferId.meshes] else []) ++
    (if s.texture then [Op.draw BufferId.meshes] else []) ++
    (if s.full then [Op.draw BufferId.meshes] else [])
  else []

/-- Embeds one invocation of `render` (`src/index.ts` lines 190–243): the
light point, optionally the skeleton, then the per-mesh draws — selection
among precomputed buffers only. -/
def renderOps (s : Settings) : List Op :=
  [Op.draw BufferId.lightBuffer] ++
  (if s.skeleton then [Op.draw BufferId.joints] else []) ++
  (s.meshEnabled.map (renderMeshOps s)).flatten

/-- The model-data operation trace of the whole program: the startup body
followed by one `render` invocation per animation frame. -/
def programTrace (frames : List Settings) : List Op :=
  startupOps ++ (frames.map renderOps).flatten

/-- True for `draw` operations. -/
def isDraw : Op → Bool
  | Op.draw _ => true
  | _ => false

/-! ### Concrete example documents, used to instantiate the theorems -/

/-- A well-formed two-joint animation in which every joint has `flags == 0`:
a root and one child, no stored channels, one empty frame. -/
def exAnim : MD5Anim where
  hierarchy := [⟨"origin", -1, 0, 0⟩, ⟨"child", 0, 0, 0⟩]
  bounds := []
  baseFrame := [⟨⟨0, 0, 0⟩, ⟨0, 0, 0, 1⟩⟩, ⟨⟨1, 0, 0⟩, ⟨0, 0, 0, 1⟩⟩]
  frames := [⟨0, []⟩]

/-- A joint whose flag mask 56 stores the three orientation channels
(bits 3, 4, 5). -/
def exOrientJoint : Hierarchy := ⟨"j", -1, 56, 0⟩

/-- An animation whose only joint declares parent index 5: out of range and
not yet declared. -/
def exBadParentAnim : MD5Anim where
  hierarchy := [⟨"a", 5, 0, 0⟩]
  bounds := []
  baseFrame := [⟨⟨0, 0, 0⟩, ⟨0, 0, 0, 1⟩⟩]
  frames := []

/-- An animation whose frame stores one float although its joint's flag mask
stores zero channels. -/
def exBadChannelAnim : MD5Anim where
  hierarchy := [⟨"a", -1, 0, 0⟩]
  bounds := []
  baseFrame := [⟨⟨0, 0, 0⟩, ⟨0, 0, 0, 1⟩⟩]
  frames := [⟨0, [0]⟩]

/-- A mesh document whose single vertex declares a weight range of two
entries over an empty weight list. -/
def exBadWeightMesh : MD5Mesh where
  joints := []
  meshes := [⟨"s", [⟨0, 0, 0, 2⟩], [], []⟩]

/-! ## Helper lemmas -/

theorem Vec3.add_def (a b : Vec3) : a + b = ⟨a.x + b.x, a.y + b.y, a.z + b.z⟩ := rfl

theorem Vec3.zero_def : (0 : Vec3) = ⟨0, 0, 0⟩ := rfl

theorem vadd_eq_add (a b : Vec3) : vadd a b = a + b := rfl

/-- Accumulating a mapped vector over a list with `vadd` computes the
initial value plus the sum of the mapped values. -/
theorem foldl_vadd_eq_sum {α : Type} (f : α → Vec3) (l : List α) :
    ∀ init : Vec3, l.foldl (fun acc a => vadd acc (f a)) init = init + (l.map f).sum := by
  induction l with
  | nil => intro init; simp
  | cons a as ih =>
    intro init
    simp only [List.foldl_cons, List.map_cons, List.sum_cons, ih]
    show init + f a + _ = _
    rw [add_assoc]

/-- A joint whose flag mask is 0 stores no channels: its local resolution is
the base-frame transform verbatim. -/
theorem resolveLocal_zero_flags (h : Hierarchy) (bf : BaseFrame) (comps : List ℝ)
    (hf : h.flags = 0) : resolveLocal h bf comps = ⟨bf.position, bf.orientation⟩ := by
  simp [resolveLocal, chanVal, orientFlagged, hf, Nat.zero_testBit]

/-- Unrolling of `resolveUpTo`: resolving one more joint applies one more
resolution step. -/
theorem resolveUpTo_succ (anim : MD5Anim) (comps : List ℝ) (m : Nat) :
    resolveUpTo anim comps (m + 1) =
      resolveStep anim comps (resolveUpTo anim comps m) m := by
  simp [resolveUpTo, List.range_succ]

/-- Resolving the first `m` joints yields `m` transforms. -/
theorem resolveUpTo_length (anim : MD5Anim) (comps : List ℝ) :
    ∀ m, (resolveUpTo anim comps m).length = m := by
  intro m
  induction m with
  | zero => rfl
  | succ m ih =>
    rw [resolveUpTo_succ]
    simp only [resolveStep, List.length_append, ih, List.length_singleton]

/-- One further resolution step does not change the transforms of joints
already resolved. -/
theorem resolveUpTo_getD_succ (anim : MD5Anim) (comps : List ℝ) (m k : Nat)
    (hk : k < m) (d : JointTransform) :
    (resolveUpTo anim comps (m + 1)).getD k d = (resolveUpTo anim comps m).getD k d := by
  rw [resolveUpTo_succ]
  simp only [resolveStep]
  rw [List.getD_eq_getElem?_getD, List.getElem?_append_left, ← List.getD_eq_getElem?_getD]
  rw [resolveUpTo_length]
  exact hk

/-- The last element of a one-element append, read through `getD`. -/
theorem getD_concat_len {α : Type} (l : List α) (a d : α) {k : Nat}
    (h : k = l.length) : (l ++ [a]).getD k d = a := by
  subst h
  rw [List.getD_eq_getElem?_getD, List.getElem?_concat_length, Option.getD_some]

/-- A joint's resolved transform is stable under resolving any number of
further joints. -/
theorem resolveUpTo_getD_mono (anim : MD5Anim) (comps : List ℝ) {m m' k : Nat}
    (hle : m ≤ m') (hk : k < m) (d : JointTransform) :
    (resolveUpTo anim comps m').getD k d = (resolveUpTo anim comps m).getD k d := by
  induction m', hle using Nat.le_induction with
  | base => rfl
  | succ n hn ih =>
    rw [resolveUpTo_getD_succ anim comps n k (lt_of_lt_of_le hk hn) d]
    exact ih

/-! ## Claims -/

/-- Claim C1: a joint whose flag mask is 0 resolves to exactly its base-frame
position and orientation, independently of the frame's component stream (no
channel overwritten, no float consumed); and for an animation in which every
joint has `flags == 0`, resolving any frame yields exactly the pose obtained
from the base frame alone, for every joint. -/
theorem flags_zero_resolves_to_baseframe (anim : MD5Anim) :
    (∀ (h : Hierarchy) (bf : BaseFrame) (comps comps' : List ℝ), h.flags = 0 →
      resolveLocal h bf comps = ⟨bf.position, bf.orientation⟩
      ∧ resolveLocal h bf comps = resolveLocal h bf comps')
    ∧ ((∀ hj ∈ anim.hierarchy, hj.flags = 0) →
        ∀ f, resolvePose anim f = basePose anim) := by
  constructor
  · intro h bf comps comps' hf
    rw [resolveLocal_zero_flags h bf comps hf, resolveLocal_zero_flags h bf comps' hf]
    exact ⟨rfl, rfl⟩
  · intro hall f
    simp only [resolvePose, basePose]
    apply List.foldl_ext
    intro acc j hjmem
    rw [List.mem_range] at hjmem
    have hmem : anim.hierarchy.getD j default ∈ anim.hierarchy := by
      rw [List.getD_eq_getElem _ _ hjmem]
      exact List.getElem_mem _
    simp only [resolveStep]
    rw [resolveLocal_zero_flags _ _ _ (hall _ hmem)]

/-- Claim C1 witness: a two-joint animation whose joints both have flag mask
0 resolves frame 0 to the base-frame pose. -/
theorem flags_zero_resolves_to_baseframe_witness :
    resolvePose exAnim 0 = basePose exAnim :=
  (flags_zero_resolves_to_baseframe exAnim).2 (by decide) 0

/-- Claim C2: whenever any orientation channel of a joint is overwritten from
the frame's component stream, the resolved quaternion's W component is
`recomputeW x y z = sqrt (max 0 (1 - x² - y² - z²))`; `recomputeW` is always
non-negative, gives an exactly unit quaternion whenever the three stored
components have square-sum at most 1, and stays within any tolerance `tol`
whenever their square-sum is at most `1 + tol`. -/
theorem resolved_orientation_unit (h : Hierarchy) (bf : BaseFrame) (comps : List ℝ)
    (horient : orientFlagged h.flags = true) :
    (resolveLocal h bf comps).orientation.w =
      recomputeW (resolveLocal h bf comps).orientation.x
        (resolveLocal h bf comps).orientation.y
        (resolveLocal h bf comps).orientation.z
    ∧ (∀ x y z : ℝ,
        0 ≤ recomputeW x y z
        ∧ (x ^ 2 + y ^ 2 + z ^ 2 ≤ 1 →
            x ^ 2 + y ^ 2 + z ^ 2 + recomputeW x y z ^ 2 = 1)
        ∧ ∀ tol : ℝ, 0 ≤ tol → x ^ 2 + y ^ 2 + z ^ 2 ≤ 1 + tol →
            |x ^ 2 + y ^ 2 + z ^ 2 + recomputeW x y z ^ 2 - 1| ≤ tol) := by
  constructor
  · simp only [resolveLocal, horient, if_true]
  · intro x y z
    have hsq : x ^ 2 + y ^ 2 + z ^ 2 ≤ 1 →
        x ^ 2 + y ^ 2 + z ^ 2 + recomputeW x y z ^ 2 = 1 := by
      intro hs
      have hmax : max 0 (1 - (x ^ 2 + y ^ 2 + z ^ 2)) = 1 - (x ^ 2 + y ^ 2 + z ^ 2) :=
        max_eq_right (by linarith)
      have hw : recomputeW x y z ^ 2 = 1 - (x ^ 2 + y ^ 2 + z ^ 2) := by
        rw [recomputeW, Real.sq_sqrt (le_max_left _ _), hmax]
      linarith
    refine ⟨Real.sqrt_nonneg _, hsq, ?_⟩
    intro tol htol hs
    by_cases hle : x ^ 2 + y ^ 2 + z ^ 2 ≤ 1
    · rw [hsq hle]
      simpa using htol
    · have hmax : max 0 (1 - (x ^ 2 + y ^ 2 + z ^ 2)) = 0 :=
        max_eq_left (by linarith)
      have hw : recomputeW x y z = 0 := by
        rw [recomputeW, hmax, Real.sqrt_zero]
      rw [hw]
      rw [abs_of_nonneg (by nlinarith)]
      nlinarith

/-- Claim C2 witness: instantiated at a joint whose flag mask 56 stores the
three orientation channels. -/
theorem resolved_orientation_unit_witness :
    ((resolveLocal exOrientJoint ⟨⟨0, 0, 0⟩, ⟨0, 0, 0, 1⟩⟩ [0, 0, 0]).orientation.w =
      recomputeW (resolveLocal exOrientJoint ⟨⟨0, 0, 0⟩, ⟨0, 0, 0, 1⟩⟩ [0, 0, 0]).orientation.x
        (resolveLocal exOrientJoint ⟨⟨0, 0, 0⟩, ⟨0, 0, 0, 1⟩⟩ [0, 0, 0]).orientation.y
        (resolveLocal exOrientJoint ⟨⟨0, 0, 0⟩, ⟨0, 0, 0, 1⟩⟩ [0, 0, 0]).orientation.z)
    ∧ (∀ x y z : ℝ,
        0 ≤ recomputeW x y z
        ∧ (x ^ 2 + y ^ 2 + z ^ 2 ≤ 1 →
            x ^ 2 + y ^ 2 + z ^ 2 + recomputeW x y z ^ 2 = 1)
        ∧ ∀ tol : ℝ, 0 ≤ tol → x ^ 2 + y ^ 2 + z ^ 2 ≤ 1 + tol →
            |x ^ 2 + y ^ 2 + z ^ 2 + recomputeW x y z ^ 2 - 1| ≤ tol) :=
  resolved_orientation_unit exOrientJoint ⟨⟨0, 0, 0⟩, ⟨0, 0, 0, 1⟩⟩ [0, 0, 0] (by decide)

/-- Claim C3: the skin evaluator returns, for every vertex, the linear-blend
sum `Σ weight · (jointPosition + jointOrientation · jointSpaceOffset)` over
the vertex's weight bindings with the raw stored weights (no
renormalization); a single weight of 1.0 bound to a root joint at the
identity transform returns the raw joint-space offset unchanged. -/
theorem skinVertex_linear_blend (J : List JointTransform) (ws : List MeshWeight)
    (v : MeshVertex) (off : Vec3) :
    skinVertex J ws v =
      ((vertexBindings ws v).map (fun w =>
        smul w.bias (vadd (J.getD w.joint default).position
          (quatRotate (J.getD w.joint default).orientation w.position)))).sum
    ∧ skinVertex [⟨⟨0, 0, 0⟩, ⟨0, 0, 0, 1⟩⟩] [⟨0, 1, off⟩] ⟨0, 0, 0, 1⟩ = off := by
  constructor
  · rw [skinVertex, foldl_vadd_eq_sum (skinWeight J) (vertexBindings ws v)]
    show (0 : Vec3) + _ = _
    rw [zero_add]
    rfl
  · ext <;>
      simp [skinVertex, vertexBindings, skinWeight, quatRotate, smul, vadd,
        List.range_succ]

/-- Claim C4: in every animation document accepted by parsing validation,
each joint's parent index is `-1` or strictly less than its own index; and in
pose resolution — which proceeds in ascending joint index order — a joint
with `parent ≥ 0` is composed with the absolute transform that the resolved
pose holds at that strictly lower index. -/
theorem parent_before_child (doc d : MD5Anim) (hok : checkAnim doc = Except.ok d)
    (f j : Nat) (hj : j < d.hierarchy.length)
    (hp : 0 ≤ (d.hierarchy.getD j default).parent) :
    (∀ k, k < d.hierarchy.length →
      (d.hierarchy.getD k default).parent = -1
      ∨ (d.hierarchy.getD k default).parent < (k : Int))
    ∧ (d.hierarchy.getD j default).parent.toNat < j
    ∧ (resolvePose d f).getD j default =
        composeParent
          ((resolvePose d f).getD (d.hierarchy.getD j default).parent.toNat default)
          (resolveLocal (d.hierarchy.getD j default) (d.baseFrame.getD j default)
            (d.frames.getD f default).components) := by
  have hvp : validParents d.hierarchy = true ∧ d = doc := by
    unfold checkAnim at hok
    by_cases h1 : validParents doc.hierarchy = true
    · by_cases h2 : validChannels doc = true
      · rw [if_neg (not_not_intro h1), if_neg (not_not_intro h2)] at hok
        injection hok with hd
        exact ⟨hd ▸ h1, hd.symm⟩
      · rw [if_neg (not_not_intro h1), if_pos h2] at hok
        exact absurd hok (by simp)
    · rw [if_pos h1] at hok
      exact absurd hok (by simp)
  have hparents := hvp.1
  have hvalid : ∀ k, k < d.hierarchy.length →
      (d.hierarchy.getD k default).parent = -1
      ∨ (0 ≤ (d.hierarchy.getD k default).parent
          ∧ (d.hierarchy.getD k default).parent < (k : Int)) := by
    intro k hk
    have := List.all_eq_true.1 hparents k (List.mem_range.2 hk)
    exact of_decide_eq_true this
  have hpj : 0 ≤ (d.hierarchy.getD j default).parent
      ∧ (d.hierarchy.getD j default).parent < (j : Int) := by
    rcases hvalid j hj with hneg | hpos
    · rw [hneg] at hp
      exact absurd hp (by norm_num)
    · exact hpos
  have htn : (d.hierarchy.getD j default).parent.toNat < j := by omega
  refine ⟨fun k hk => (hvalid k hk).imp id And.right, htn, ?_⟩
  have e1 : resolvePose d f =
      resolveUpTo d (d.frames.getD f default).components d.hierarchy.length := rfl
  rw [e1]
  rw [resolveUpTo_getD_mono d _ hj (Nat.lt_succ_self j) default]
  rw [resolveUpTo_succ]
  simp only [resolveStep]
  have hlen : (resolveUpTo d (d.frames.getD f default).components j).length = j :=
    resolveUpTo_length d _ j
  rw [getD_concat_len _ _ _ hlen.symm]
  rw [if_pos hp]
  rw [resolveUpTo_getD_mono d _ (le_of_lt hj) htn default]

/-- Claim C4 witness: the two-joint example animation passes validation, and
joint 1's parent is joint 0, resolved before it. -/
theorem parent_before_child_witness :
    (∀ k, k < exAnim.hierarchy.length →
      (exAnim.hierarchy.getD k default).parent = -1
      ∨ (exAnim.hierarchy.getD k default).parent < (k : Int))
    ∧ (exAnim.hierarchy.getD 1 default).parent.toNat < 1
    ∧ (resolvePose exAnim 0).getD 1 default =
        composeParent
          ((resolvePose exAnim 0).getD (exAnim.hierarchy.getD 1 default).parent.toNat default)
          (resolveLocal (exAnim.hierarchy.getD 1 default) (exAnim.baseFrame.getD 1 default)
            (exAnim.frames.getD 0 default).components) :=
  parent_before_child exAnim exAnim rfl 0 1 (by decide) (by decide)

/-- Claim C5: validation fails with a `FormatError` — and success returns the
input document verbatim, never a repaired one — whenever a parent index is
out of range or references a not-yet-declared joint, whenever a frame's
stored channel count does not match the flag popcounts, or whenever a
vertex's weight index range falls outside the declared weight list. -/
theorem format_errors_are_fatal (doc : MD5Anim) (mdoc : MD5Mesh) :
    ((∃ j, j < doc.hierarchy.length ∧
        ¬((doc.hierarchy.getD j default).parent = -1
          ∨ (0 ≤ (doc.hierarchy.getD j default).parent
             ∧ (doc.hierarchy.getD j default).parent < (j : Int)))) →
      ∃ msg, checkAnim doc = Except.error (MD5Error.formatError msg))
    ∧ ((∃ fr ∈ doc.frames, fr.components.length ≠ totalChannels doc.hierarchy) →
      ∃ msg, checkAnim doc = Except.error (MD5Error.formatError msg))
    ∧ (∀ d, checkAnim doc = Except.ok d → d = doc)
    ∧ ((∃ m ∈ mdoc.meshes, ∃ v ∈ m.vertices,
        ¬(v.startWeight + v.countWeight ≤ m.weights.length)) →
      ∃ msg, checkMesh mdoc = Except.error (MD5Error.formatError msg)) := by
  refine ⟨?_, ?_, ?_, ?_⟩
  · rintro ⟨j, hj, hbad⟩
    have hvp : ¬ (validParents doc.hierarchy = true) := by
      intro hvp
      have hall := List.all_eq_true.1 hvp j (List.mem_range.2 hj)
      exact hbad (of_decide_eq_true hall)
    exact ⟨_, by unfold checkAnim; rw [if_pos hvp]⟩
  · rintro ⟨fr, hmem, hne⟩
    have hvc : ¬ (validChannels doc = true) := by
      intro hvc
      unfold validChannels at hvc
      rw [Bool.and_eq_true] at hvc
      have hall := List.all_eq_true.1 hvc.2 fr hmem
      exact hne (by simpa using hall)
    by_cases h1 : validParents doc.hierarchy = true
    · exact ⟨_, by unfold checkAnim; rw [if_neg (not_not_intro h1), if_pos hvc]⟩
    · exact ⟨_, by unfold checkAnim; rw [if_pos h1]⟩
  · intro d hok
    unfold checkAnim at hok
    by_cases h1 : validParents doc.hierarchy = true
    · by_cases h2 : validChannels doc = true
      · rw [if_neg (not_not_intro h1), if_neg (not_not_intro h2)] at hok
        injection hok with hd
        exact hd.symm
      · rw [if_neg (not_not_intro h1), if_pos h2] at hok
        exact absurd hok (by simp)
    · rw [if_pos h1] at hok
      exact absurd hok (by simp)
  · rintro ⟨m, hm, v, hv, hbad⟩
    have hw : ¬ (mdoc.meshes.all validWeightRanges = true) := by
      intro hall
      have h1 := List.all_eq_true.1 hall m hm
      unfold validWeightRanges at h1
      have h2 := List.all_eq_true.1 h1 v hv
      exact hbad (of_decide_eq_true h2)
    by_cases hjnt : (List.range mdoc.joints.length).all
        (fun j => validParent j (mdoc.joints.getD j default).parent) = true
    · exact ⟨_, by unfold checkMesh; rw [if_neg (not_not_intro hjnt), if_pos hw]⟩
    · exact ⟨_, by unfold checkMesh; rw [if_pos hjnt]⟩

/-- Claim C5 witness: a not-yet-declared parent index, a channel-count
mismatch and an out-of-range weight range each make validation return a
`FormatError`. -/
theorem format_errors_are_fatal_witness :
    (∃ msg, checkAnim exBadParentAnim = Except.error (MD5Error.formatError msg))
    ∧ (∃ msg, checkAnim exBadChannelAnim = Except.error (MD5Error.formatError msg))
    ∧ (∃ msg, checkMesh exBadWeightMesh = Except.error (MD5Error.formatError msg)) :=
  ⟨(format_errors_are_fatal exBadParentAnim exBadWeightMesh).1
      ⟨0, by decide, by decide⟩,
   (format_errors_are_fatal exBadChannelAnim exBadWeightMesh).2.1
      ⟨⟨0, [0]⟩, List.mem_cons_self _ _, by decide⟩,
   (format_errors_are_fatal exBadParentAnim exBadWeightMesh).2.2.2
      ⟨⟨"s", [⟨0, 0, 0, 2⟩], [], []⟩, List.mem_cons_self _ _,
       ⟨0, 0, 0, 2⟩, List.mem_cons_self _ _, by decide⟩⟩

/-- Claim C6: a near-zero UV-area determinant makes the tangent/bitangent
computation report a warning to the diagnostic sink and leave the triangle's
result undefined, and a defined result is only ever produced with a
determinant bounded away from zero (so the division is never by zero and the
ℝ-modelled output is finite). -/
theorem degenerate_uv_reported_and_skipped (p0 p1 p2 : Vec3) (uv0 uv1 uv2 : ℝ × ℝ) :
    (|(uv1.1 - uv0.1) * (uv2.2 - uv0.2) - (uv2.1 - uv0.1) * (uv1.2 - uv0.2)| <
        degenerateEps →
      (triangleTangentBitangent p0 p1 p2 uv0 uv1 uv2).1 = none
      ∧ (triangleTangentBitangent p0 p1 p2 uv0 uv1 uv2).2 =
          ["degenerate UV-area determinant"])
    ∧ (∀ tb, (triangleTangentBitangent p0 p1 p2 uv0 uv1 uv2).1 = some tb →
        degenerateEps ≤
          |(uv1.1 - uv0.1) * (uv2.2 - uv0.2) - (uv2.1 - uv0.1) * (uv1.2 - uv0.2)|
        ∧ (uv1.1 - uv0.1) * (uv2.2 - uv0.2) - (uv2.1 - uv0.1) * (uv1.2 - uv0.2) ≠ 0) := by
  constructor
  · intro hdet
    unfold triangleTangentBitangent
    rw [if_pos hdet]
    exact ⟨rfl, rfl⟩
  · intro tb hsome
    by_cases hdet : |(uv1.1 - uv0.1) * (uv2.2 - uv0.2) -
        (uv2.1 - uv0.1) * (uv1.2 - uv0.2)| < degenerateEps
    · exfalso
      unfold triangleTangentBitangent at hsome
      rw [if_pos hdet] at hsome
      exact absurd hsome (by simp)
    · refine ⟨le_of_not_lt hdet, ?_⟩
      intro h0
      rw [h0] at hdet
      exact hdet (by norm_num [degenerateEps])

/-- Claim C6 witness: a triangle whose three UVs coincide has determinant 0
and is skipped with a warning. -/
theorem degenerate_uv_reported_and_skipped_witness :
    (triangleTangentBitangent ⟨0, 0, 0⟩ ⟨1, 0, 0⟩ ⟨0, 1, 0⟩ (0, 0) (0, 0) (0, 0)).1 = none
    ∧ (triangleTangentBitangent ⟨0, 0, 0⟩ ⟨1, 0, 0⟩ ⟨0, 1, 0⟩ (0, 0) (0, 0) (0, 0)).2 =
        ["degenerate UV-area determinant"] :=
  (degenerate_uv_reported_and_skipped ⟨0, 0, 0⟩ ⟨1, 0, 0⟩ ⟨0, 1, 0⟩ (0, 0) (0, 0) (0, 0)).1
    (by norm_num [degenerateEps])

/-- Scatter-accumulating triangle vectors over a buffer adds, at every slot,
the sum of the vectors of exactly the triangles sharing that vertex — as long
as every triangle has three distinct corners. -/
theorem scatter_accumulates (triVec : Triangle → Vec3) (v : Nat) :
    ∀ (tris : List Triangle) (buf : Nat → Vec3),
      (∀ t ∈ tris, t.a ≠ t.b ∧ t.a ≠ t.c ∧ t.b ≠ t.c) →
      tris.foldl (scatterTri triVec) buf v =
        buf v + ((tris.filter (fun t => sharesVertex t v)).map triVec).sum := by
  intro tris
  induction tris with
  | nil => intro buf _; simp
  | cons t ts ih =>
    intro buf hdist
    rw [List.foldl_cons]
    rw [ih _ (fun t' ht' => hdist t' (List.mem_cons_of_mem _ ht'))]
    have hstep : scatterTri triVec buf t v =
        buf v + (if sharesVertex t v = true then triVec t else 0) := by
      obtain ⟨hab, hac, hbc⟩ := hdist t (List.mem_cons_self _ _)
      by_cases hva : v = t.a <;> by_cases hvb : v = t.b <;> by_cases hvc : v = t.c <;>
        simp_all [scatterTri, addAt, sharesVertex, vadd_eq_add]
      rw [if_neg (by rintro ((h | h) | h) <;> simp_all), add_zero]
    rw [hstep]
    by_cases hs : sharesVertex t v = true
    · simp [hs, List.filter_cons, add_assoc]
    · simp [hs, List.filter_cons]

/-- Claim C7: the derived per-vertex vector is the unweighted vector sum of
the per-triangle vectors over exactly the triangles sharing that vertex,
renormalized after summation. -/
theorem vertex_vectors_unweighted_sum (tris : List Triangle) (triVec : Triangle → Vec3)
    (v : Nat) (hdist : ∀ t ∈ tris, t.a ≠ t.b ∧ t.a ≠ t.c ∧ t.b ≠ t.c) :
    accumVertex tris triVec v =
      ((tris.filter (fun t => sharesVertex t v)).map triVec).sum
    ∧ vertexVector tris triVec v =
        normalize ((tris.filter (fun t => sharesVertex t v)).map triVec).sum := by
  have h1 : accumVertex tris triVec v =
      ((tris.filter (fun t => sharesVertex t v)).map triVec).sum := by
    unfold accumVertex
    rw [scatter_accumulates triVec v tris _ hdist]
    show (⟨0, 0, 0⟩ : Vec3) + _ = _
    rw [← Vec3.zero_def, zero_add]
  refine ⟨h1, ?_⟩
  unfold vertexVector
  rw [h1]

/-- Claim C7 witness: a single triangle sharing vertex 0. -/
theorem vertex_vectors_unweighted_sum_witness :
    accumVertex [⟨0, 1, 2⟩] (fun _ => ⟨1, 0, 0⟩) 0 =
      (([⟨0, 1, 2⟩].filter (fun t => sharesVertex t 0)).map (fun _ => ⟨1, 0, 0⟩)).sum
    ∧ vertexVector [⟨0, 1, 2⟩] (fun _ => ⟨1, 0, 0⟩) 0 =
        normalize (([⟨0, 1, 2⟩].filter (fun t => sharesVertex t 0)).map
          (fun _ => ⟨1, 0, 0⟩)).sum :=
  vertex_vectors_unweighted_sum [⟨0, 1, 2⟩] (fun _ => ⟨1, 0, 0⟩) 0 (by decide)

/-- The session fold threads the document state unchanged and answers every
query from the document and frame index alone. -/
theorem resolveSession_aux :
    ∀ (qs : List Nat) (st : MD5Anim) (acc : List (List JointTransform)),
      qs.foldl
        (fun s q =>
          let r := resolveCall s.1 q
          (r.1, s.2 ++ [r.2])) (st, acc) =
      (st, acc ++ qs.map (resolvePose st)) := by
  intro qs
  induction qs with
  | nil => intro st acc; simp
  | cons q qs ih =>
    intro st acc
    rw [List.foldl_cons]
    show qs.foldl _ (st, acc ++ [resolvePose st q]) = _
    rw [ih st (acc ++ [resolvePose st q])]
    simp

/-- Claim C8: `resolvePose` is pure and stateless — a session of arbitrarily
many queries in arbitrary order (re-evaluating earlier frames included)
leaves the parsed document unchanged and returns, for every query, exactly
the per-frame transform array `resolvePose` gives for that frame index
alone. -/
theorem resolvePose_stateless (anim : MD5Anim) (queries : List Nat) :
    (resolveSession anim queries).1 = anim
    ∧ (resolveSession anim queries).2 = queries.map (resolvePose anim) := by
  unfold resolveSession
  rw [resolveSession_aux queries anim []]
  exact ⟨rfl, by simp⟩

/-- Claim C9: the pipeline reads the parsed documents without mutation: after
all three downstream stages — pose resolution, skinning of every mesh, and
the derived geometry generator — the mesh document and the animation document
— its `hierarchy`, `bounds`, `baseFrame` and `frames` arrays included — are
returned unchanged, and every derived buffer (pose, skinned positions,
per-triangle and per-vertex normals) is a function of the input documents
alone. -/
theorem pipeline_preserves_documents (m : MD5Mesh) (anim : MD5Anim) (f : Nat) :
    (runPipeline m anim f).1.1 = m
    ∧ (runPipeline m anim f).1.2 = anim
    ∧ (runPipeline m anim f).1.2.hierarchy = anim.hierarchy
    ∧ (runPipeline m anim f).1.2.bounds = anim.bounds
    ∧ (runPipeline m anim f).1.2.baseFrame = anim.baseFrame
    ∧ (runPipeline m anim f).1.2.frames = anim.frames
    ∧ (runPipeline m anim f).2.1 = resolvePose anim f
    ∧ (runPipeline m anim f).2.2.1 = m.meshes.map (skinMesh (resolvePose anim f))
    ∧ (runPipeline m anim f).2.2.2 =
        (m.meshes.zip (m.meshes.map (skinMesh (resolvePose anim f)))).map
          (fun p => meshDerivedGeometry p.2 p.1) :=
  ⟨rfl, rfl, rfl, rfl, rfl, rfl, rfl, rfl, rfl⟩

/-- Membership in a conditional list whose alternative is empty forces the
condition and membership in the chosen list. -/
theorem mem_if_nil {α : Type} {P : Prop} [Decidable P] {a : α} {l : List α}
    (h : a ∈ if P then l else []) : P ∧ a ∈ l := by
  split at h
  · exact ⟨by assumption, h⟩
  · exact absurd h (List.not_mem_nil a)

/-- Every operation the per-mesh render body performs is a draw of a buffer
computed at startup. -/
theorem mem_renderMeshOps_good (s : Settings) (e : Bool) (op : Op)
    (hop : op ∈ renderMeshOps s e) :
    ∃ b, op = Op.draw b ∧ Op.compute b ∈ startupOps := by
  unfold renderMeshOps at hop
  obtain ⟨-, hop⟩ := mem_if_nil hop
  simp only [List.mem_append] at hop
  rcases hop with ((((((h | h) | h) | h) | h) | h) | h) <;>
    obtain ⟨-, h⟩ := mem_if_nil h <;>
    fin_cases h <;>
    exact ⟨_, rfl, by decide⟩

/-- Every operation one `render` invocation performs is a draw of a buffer
computed at startup. -/
theorem mem_renderOps_good (s : Settings) (op : Op) (hop : op ∈ renderOps s) :
    ∃ b, op = Op.draw b ∧ Op.compute b ∈ startupOps := by
  unfold renderOps at hop
  simp only [List.mem_append] at hop
  rcases hop with (h | h) | h
  · fin_cases h
    exact ⟨_, rfl, by decide⟩
  · obtain ⟨-, h⟩ := mem_if_nil h
    fin_cases h
    exact ⟨_, rfl, by decide⟩
  · rw [List.mem_flatten] at h
    obtain ⟨l, hl, hop⟩ := h
    rw [List.mem_map] at hl
    obtain ⟨e, -, rfl⟩ := hl
    exact mem_renderMeshOps_good s e op hop

/-- Claim C10: the program trace is the startup body followed by the render
invocations; the startup body parses the model once and computes every
derived rendering buffer exactly once; and every operation any `render`
invocation performs — for any frame sequence and any settings — is a draw
that only selects among the startup-computed buffers, never a re-parse or a
recomputation. -/
theorem render_only_draws_precomputed (framesList : List Settings) :
    programTrace framesList = startupOps ++ (framesList.map renderOps).flatten
    ∧ (∀ op ∈ (framesList.map renderOps).flatten,
        ∃ b, op = Op.draw b ∧ Op.compute b ∈ startupOps)
    ∧ (∀ b : BufferId, startupOps.count (Op.compute b) = 1)
    ∧ startupOps.count Op.parseModel = 1
    ∧ (∀ s : Settings, ∀ op ∈ renderOps s, isDraw op = true) := by
  refine ⟨rfl, ?_, ?_, by decide, ?_⟩
  · intro op hop
    rw [List.mem_flatten] at hop
    obtain ⟨l, hl, hop⟩ := hop
    rw [List.mem_map] at hl
    obtain ⟨s, -, rfl⟩ := hl
    exact mem_renderOps_good s op hop
  · intro b
    cases b <;> decide
  · intro s op hop
    obtain ⟨b, rfl, -⟩ := mem_renderOps_good s op hop
    rfl

/-- Claim C10 witness: with every visualization enabled for one frame, the
light-buffer draw of `render` reads a startup-computed buffer. -/
theorem render_only_draws_precomputed_witness :
    ∃ b, Op.draw BufferId.lightBuffer = Op.draw b ∧ Op.compute b ∈ startupOps :=
  (render_only_draws_precomputed
      [⟨true, [true], true, true, true, true, true, true, true⟩]).2.1
    (Op.draw BufferId.lightBuffer) (by decide)

end MD5
